import Mathlib

/-!
Shallow embedding of `setup_telegram.py`, the one-file Telegram session setup
script of this repository, together with proofs of the specification claims.

Python strings are modelled as lists of characters (`Str`).  The script's
observable effects — prints to standard output, reads/appends of the `.env`
file, and the remote client-library calls — are recorded as an event trace.
The remote side (Telethon) is modelled by a `World` record giving the outcome
of every remote call; Python exceptions are modelled by `PyExn`.
-/

namespace SetupTelegram

/-- Python strings, modelled as lists of characters. -/
abbrev Str := List Char

/-- Whitespace test used by Python `str.strip` (ASCII fragment). -/
def ws (c : Char) : Bool := c.isWhitespace

/-- Python `str.strip()`: drop whitespace characters from both ends. -/
def pyStrip (s : Str) : Str := ((s.dropWhile ws).reverse.dropWhile ws).reverse

/-- Helper for `splitLines`: accumulate the current line (reversed) while
scanning for newline characters. -/
def splitLinesAux : Str → Str → List Str
  | [], acc => [acc.reverse]
  | c :: cs, acc =>
      if c = '\n' then acc.reverse :: splitLinesAux cs []
      else splitLinesAux cs (c :: acc)

/-- Iterating a text file line by line (`for line in f`), modelled as splitting
the contents on newline characters.  The trailing empty fragment produced by a
final newline is skipped by `load_env`'s blank-line filter, as in Python. -/
def splitLines (s : Str) : List Str := splitLinesAux s []

/-- Python `line.split('=', 1)`: the part before the first `'='` and the part
after it.  Meaningful only when the line contains an `'='`. -/
def splitFirstEq : Str → Str × Str
  | [] => ([], [])
  | c :: cs =>
      if c = '=' then ([], cs)
      else
        let p := splitFirstEq cs
        (c :: p.1, p.2)

/-- One iteration of `load_env`'s loop (setup_telegram.py lines 18-22): strip
the line; skip it when it is empty, starts with `'#'`, or has no `'='`;
otherwise split on the first `'='` into a key/value binding. -/
def lineKV (line : Str) : Option (Str × Str) :=
  let l := pyStrip line
  if l ≠ [] ∧ l.head? ≠ some '#' ∧ '=' ∈ l then some (splitFirstEq l) else none

/-- A Python dict from string keys to string values, as an association list
with pairwise-distinct keys. -/
abbrev Dict := List (Str × Str)

/-- Python dict assignment `d[k] = v`: overwrite the existing binding of `k`
in place, or append a new binding. -/
def dictInsert : Dict → Str → Str → Dict
  | [], k, v => [(k, v)]
  | (k', v') :: rest, k, v =>
      if k' = k then (k', v) :: rest else (k', v') :: dictInsert rest k v

/-- Python `d.get(k, dflt)`. -/
def dictGet : Dict → Str → Str → Str
  | [], _, dflt => dflt
  | (k', v') :: rest, k, dflt => if k' = k then v' else dictGet rest k dflt

/-- The parsing loop of `load_env` (lines 15-22): fold the key/value bindings
of the file's lines into a dict, later bindings overwriting earlier ones. -/
def parseEnv (content : Str) : Dict :=
  (splitLines content).foldl
    (fun m line =>
      match lineKV line with
      | some kv => dictInsert m kv.1 kv.2
      | none => m) []

/-- Numeric value of a decimal digit character. -/
def digitVal (c : Char) : Nat := c.toNat - 48

/-- Decimal value of a digit string. -/
def natOfDigits (cs : Str) : Nat := cs.foldl (fun a c => a * 10 + digitVal c) 0

/-- Tail of Python `int()`'s digit grammar: digits, with single underscores
allowed only between two digits. -/
def digitsTail : Str → Bool
  | [] => true
  | '_' :: rest =>
      match rest with
      | [] => false
      | c :: rest2 => c.isDigit && digitsTail rest2
  | c :: rest => c.isDigit && digitsTail rest

/-- Python `int()`'s digit grammar: a nonempty digit string, with single
underscores allowed between digits. -/
def digitsOk : Str → Bool
  | [] => false
  | c :: rest => c.isDigit && digitsTail rest

/-- Python `int(s)` on a string: strip whitespace, optional sign, decimal
digits (single underscores between digits allowed); `none` models the
`ValueError` raised on any other input. -/
def pyInt (s : Str) : Option Int :=
  let t := pyStrip s
  match t with
  | '+' :: rest =>
      if digitsOk rest then some (natOfDigits (rest.filter fun c => c ≠ '_')) else none
  | '-' :: rest =>
      if digitsOk rest then some (-(natOfDigits (rest.filter fun c => c ≠ '_') : Int)) else none
  | _ =>
      if digitsOk t then some (natOfDigits (t.filter fun c => c ≠ '_')) else none

/-- A Python exception escaping an awaited call: either `KeyboardInterrupt`
(caught at line 98) or any other `Exception` carrying a message (line 100). -/
inductive PyExn
  | keyboardInterrupt
  | exn (msg : Str)
  deriving DecidableEq

/-- The Telethon `me` object returned by `client.get_me()`: the attributes the
script reads (lines 63-68).  `premium_attr_present` models
`hasattr(me, 'premium')`. -/
structure Me where
  first_name : Str
  last_name : Option Str
  username : Option Str
  id : Int
  premium_attr_present : Bool
  premium : Bool
  deriving DecidableEq

/-- Outcomes of the remote side of one run: what each Telethon call returns
(or which exception it raises), and the serialized session string that
`client.session.save()` yields. -/
structure World where
  start : Except PyExn Unit
  authorized : Except PyExn Bool
  me : Except PyExn Me
  session_string : Str
  entity : Int → Except PyExn Unit

/-- Observable events of one run: prints to standard output, `.env` file
operations, dict lookups of configuration keys, and remote client calls. -/
inductive Ev
  | out (s : Str)
  | readEnvFile
  | lookupEnv (k : Str)
  | appendEnvFile (s : Str)
  | callStart
  | callIsAuthorized
  | callGetMe
  | callGetEntity (i : Int)
  | callDisconnect
  | runPipInstall
  deriving DecidableEq

/-- How the process ends: a normal return (process exit status 0) or a
`sys.exit(code)`. -/
inductive ExitK
  | normal
  | exited (code : Nat)
  deriving DecidableEq

/-- Control leaving the body of the big `try` (lines 54-96): normal completion
or an exception propagating to the handlers. -/
inductive Ctl
  | done
  | raised (e : PyExn)
  deriving DecidableEq

/-- The result of one run: the event trace, the final `.env` contents
(`none` = no file), and how the process exited. -/
structure Result where
  trace : List Ev
  fs : Option Str
  exit : ExitK
  deriving DecidableEq

/-- The printed lines of a run, in order. -/
def Result.out (r : Result) : List Str :=
  r.trace.filterMap fun e =>
    match e with
    | .out s => some s
    | _ => none

/-- Python `x or dflt` on an optional string attribute: the string when it is
present and nonempty, the default otherwise. -/
def pyOr (o : Option Str) (dflt : Str) : Str :=
  match o with
  | some s => if s = [] then dflt else s
  | none => dflt

/-- Decimal rendering of an integer, as Python prints it. -/
def intStr (i : Int) : Str := (toString i).toList

/-- Configuration keys read from and written to the `.env` file. -/
def kAPI_ID : Str := "TELEGRAM_API_ID".toList

def kAPI_HASH : Str := "TELEGRAM_API_HASH".toList

def kBACKUP : Str := "BACKUP_CHANNEL_ID".toList

def kSESSION : Str := "USER_SESSION_STRING".toList

/-- The four banner prints of lines 29-32. -/
def banner : List Ev :=
  [.out "Telegram Session Setup for IPA Bot".toList,
   .out "=====================================".toList,
   .out "This will authenticate your personal Telegram account".toList,
   .out "Make sure you have Telegram Premium for 4GB file uploads\n".toList]

def envNotFoundMsg : Str := ".env file not found!".toList

def missingCredsMsg : Str := "Missing TELEGRAM_API_ID or TELEGRAM_API_HASH in .env file".toList

def invalidCredsMsg : Str := "Invalid API_ID or API_HASH in .env file".toList

def usingIdMsg (i : Int) : Str := "Using API_ID: ".toList ++ intStr i

def usingHashMsg (h : Str) : Str := "Using API_HASH: ".toList ++ h.take 8 ++ "...".toList

def authStartingMsg : Str := "\nStarting authentication...".toList

def authOkMsg : Str := "Authentication successful!".toList

def authFailedMsg : Str := "Authentication failed".toList

def authedAsMsg (me : Me) : Str :=
  "Authenticated as: ".toList ++ me.first_name ++ ' ' :: pyOr me.last_name []

def usernameMsg (me : Me) : Str :=
  "Username: @".toList ++ pyOr me.username "no username".toList

def userIdMsg (me : Me) : Str := "User ID: ".toList ++ intStr me.id

/-- The Premium-status prints of lines 68-72. -/
def premiumMsgs (me : Me) : List Ev :=
  if me.premium_attr_present && me.premium then
    [.out "Telegram Premium: YES - can upload up to 4GB files".toList]
  else
    [.out "Telegram Premium: NO - limited to 2GB files".toList,
     .out "Consider upgrading to Telegram Premium for larger file uploads".toList]

def savedMsg : Str := "\nSession string saved to .env file".toList

def completedMsg : Str := "Setup completed! You can now upload large files.".toList

def testingMsg (bc : Str) : Str := "\nTesting access to backup channel: ".toList ++ bc

def confirmedMsg : Str := "Backup channel access confirmed!".toList

def warnPrefixMsg : Str := "Warning: Cannot access backup channel: ".toList

def makeSureMsg : Str := "Make sure your account is added to the backup channel".toList

def cancelledMsg : Str := "\nSetup cancelled by user".toList

def setupFailedMsg (m : Str) : Str := "\nSetup failed: ".toList ++ m

/-- The troubleshooting prints of lines 102-106. -/
def troubleshootingMsgs : List Ev :=
  [.out "\nTroubleshooting:".toList,
   .out "1. Make sure your phone number includes country code (+84987654321)".toList,
   .out "2. Check Telegram app for verification code".toList,
   .out "3. If you have 2FA, enter your password correctly".toList,
   .out "4. Ensure you have internet connection".toList]

/-- Message of the `ValueError` raised by `int()` on a non-numeric string
(modelled without the quoted repr of the offending string). -/
def valueErrorMsg (s : Str) : Str :=
  "invalid literal for int() with base 10: ".toList ++ s

/-- The chunk appended to the `.env` file at lines 78-79:
a newline, then one `USER_SESSION_STRING=...` line. -/
def sessChunk (s : Str) : Str := '\n' :: (kSESSION ++ '=' :: (s ++ ['\n']))

/-- The backup-channel access check of lines 84-93, run after the session
string was saved.  `int()`'s `ValueError` and any `Exception` from
`get_entity` are caught by the inner handler; a `KeyboardInterrupt`
propagates to the outer one. -/
def backupCheck (env : Dict) (w : World) : List Ev × Ctl :=
  let bc := dictGet env kBACKUP []
  if bc = [] then ([.lookupEnv kBACKUP], .done)
  else
    let o : List Ev := [.lookupEnv kBACKUP, .out (testingMsg bc)]
    match pyInt bc with
    | none =>
        (o ++ [.out (warnPrefixMsg ++ valueErrorMsg bc), .out makeSureMsg], .done)
    | some cid =>
        match w.entity cid with
        | .ok _ => (o ++ [.callGetEntity cid, .out confirmedMsg], .done)
        | .error (.exn m) =>
            (o ++ [.callGetEntity cid, .out (warnPrefixMsg ++ m), .out makeSureMsg], .done)
        | .error .keyboardInterrupt =>
            (o ++ [.callGetEntity cid], .raised .keyboardInterrupt)

/-- Body of the big `try` of lines 54-96, given the `.env` contents, the
parsed dict and the remote world: the events it emits, the resulting `.env`
contents, and whether an exception escapes to the handlers. -/
def tryBody (content : Str) (env : Dict) (w : World) : List Ev × Option Str × Ctl :=
  let o : List Ev := [.out authStartingMsg, .callStart]
  match w.start with
  | .error e => (o, some content, .raised e)
  | .ok _ =>
    let o := o ++ [.callIsAuthorized]
    match w.authorized with
    | .error e => (o, some content, .raised e)
    | .ok false => (o ++ [.out authFailedMsg], some content, .done)
    | .ok true =>
      let o := o ++ [.out authOkMsg, .callGetMe]
      match w.me with
      | .error e => (o, some content, .raised e)
      | .ok me =>
        let o := o ++
          [.out (authedAsMsg me), .out (usernameMsg me), .out (userIdMsg me)] ++
          premiumMsgs me
        let chunk := sessChunk w.session_string
        let o := o ++ [.appendEnvFile chunk, .out savedMsg, .out completedMsg]
        let bcr := backupCheck env w
        (o ++ bcr.1, some (content ++ chunk), bcr.2)

/-- The handler prints of lines 98-106 for an exception escaping the `try`
body. -/
def handlerEvents : Ctl → List Ev
  | .done => []
  | .raised .keyboardInterrupt => [.out cancelledMsg]
  | .raised (.exn m) => .out (setupFailedMsg m) :: troubleshootingMsgs

/-- The whole of `setup_session` (lines 28-108), as a function of the initial
`.env` contents and the remote world.  `load_env` and the credential checks
run before the `try`; `sys.exit(1)` on those paths ends the process with
status 1; every exception of the `try` body is caught, and the run then ends
normally after `finally: client.disconnect()`. -/
def setup_session (fs : Option Str) (w : World) : Result :=
  let o0 : List Ev := banner ++ [.readEnvFile]
  match fs with
  | none =>
      { trace := o0 ++ [.out envNotFoundMsg], fs := none, exit := .exited 1 }
  | some content =>
    let env := parseEnv content
    let o1 := o0 ++ [.lookupEnv kAPI_ID]
    match pyInt (dictGet env kAPI_ID []) with
    | none =>
        { trace := o1 ++ [.out missingCredsMsg], fs := some content, exit := .exited 1 }
    | some api_id =>
      let api_hash := dictGet env kAPI_HASH []
      let o2 := o1 ++ [.lookupEnv kAPI_HASH]
      if api_id = 0 ∨ api_hash = [] then
        { trace := o2 ++ [.out invalidCredsMsg], fs := some content, exit := .exited 1 }
      else
        let o3 := o2 ++ [.out (usingIdMsg api_id), .out (usingHashMsg api_hash)]
        let tb := tryBody content env w
        { trace := o3 ++ tb.1 ++ handlerEvents tb.2.2 ++ [.callDisconnect],
          fs := tb.2.1,
          exit := .normal }

/-- The Python interpreter environment seen by `main` (lines 110-127). -/
structure Sys where
  version : Nat × Nat
  telethonInstalled : Bool
  telethonVersion : Str

def pyRequiredMsg : Str := "Python 3.6+ is required".toList

def notInstalledMsg : Str := "Telethon not installed. Installing...".toList

def installedMsg : Str := "Telethon installed. Please run the script again.".toList

def telethonVersionMsg (v : Str) : Str := "Telethon version: ".toList ++ v

/-- `main` (lines 110-127): version gate, Telethon import check (installing
and exiting with status 0 when absent), then `asyncio.run(setup_session())`.
The command-line argument vector `argv` is part of the process state but is
never read by the script. -/
def main (argv : List Str) (sys : Sys) (fs : Option Str) (w : World) : Result :=
  if sys.version.1 < 3 ∨ (sys.version.1 = 3 ∧ sys.version.2 < 6) then
    { trace := [.out pyRequiredMsg], fs := fs, exit := .exited 1 }
  else if sys.telethonInstalled then
    let r := setup_session fs w
    { trace := .out (telethonVersionMsg sys.telethonVersion) :: r.trace,
      fs := r.fs, exit := r.exit }
  else
    { trace := [.out notInstalledMsg, .runPipInstall, .out installedMsg],
      fs := fs, exit := .exited 0 }

/-! ### Trace classifiers and sample runs -/

/-- Is the event a print? -/
def isOutEv : Ev → Bool
  | .out _ => true
  | _ => false

/-- Is the event the opening of the `.env` file for reading? -/
def isReadEv : Ev → Bool
  | .readEnvFile => true
  | _ => false

/-- Is the event a configuration-dict lookup? -/
def isLookupEv : Ev → Bool
  | .lookupEnv _ => true
  | _ => false

/-- Is the event an append to the `.env` file? -/
def isAppendEv : Ev → Bool
  | .appendEnvFile _ => true
  | _ => false

/-- Is the event the `client.start()` call? -/
def isStartEv : Ev → Bool
  | .callStart => true
  | _ => false

/-- Is the event the `client.is_user_authorized()` call? -/
def isAuthEv : Ev → Bool
  | .callIsAuthorized => true
  | _ => false

/-- Is the event the `client.get_me()` call? -/
def isGetMeEv : Ev → Bool
  | .callGetMe => true
  | _ => false

/-- Is the event a `client.get_entity(...)` call? -/
def isEntityEv : Ev → Bool
  | .callGetEntity _ => true
  | _ => false

/-- No `get_entity` call occurs before the first `.env` append in the trace. -/
def appendBeforeEntity : List Ev → Bool
  | [] => true
  | .appendEnvFile _ :: _ => true
  | .callGetEntity _ :: _ => false
  | _ :: rest => appendBeforeEntity rest

/-- The part of the trace before the `client.start()` call. -/
def beforeStart (t : List Ev) : List Ev := t.takeWhile fun e => !isStartEv e

/-- The prefix of every run that reaches the credential checks. -/
def preTrace (i : Int) (h : Str) : List Ev :=
  banner ++
    [.readEnvFile, .lookupEnv kAPI_ID, .lookupEnv kAPI_HASH,
     .out (usingIdMsg i), .out (usingHashMsg h)]

/-- A sample authenticated account, used to evaluate the theorems on concrete
runs. -/
def me0 : Me :=
  { first_name := "Ann".toList, last_name := some "Lee".toList,
    username := some "ann".toList, id := 42,
    premium_attr_present := true, premium := true }

/-- A sample remote world where everything succeeds. -/
def wOk : World :=
  { start := .ok (), authorized := .ok true, me := .ok me0,
    session_string := "SESSABC".toList, entity := fun _ => .ok () }

/-- A sample remote world where `client.start()` raises a network error. -/
def wNet : World :=
  { start := .error (.exn "ConnectionError".toList), authorized := .ok false,
    me := .error (.exn "not authorized".toList), session_string := [],
    entity := fun _ => .error (.exn "no access".toList) }

/-- A sample remote world where the backup-channel check fails. -/
def wNoChan : World :=
  { start := .ok (), authorized := .ok true, me := .ok me0,
    session_string := "SESSABC".toList,
    entity := fun _ => .error (.exn "Cannot find any entity".toList) }

/-- Sample `.env` contents with valid credentials and a backup channel. -/
def env0 : Str :=
  "TELEGRAM_API_ID=12345\nTELEGRAM_API_HASH=abcdef1234567890\nBACKUP_CHANNEL_ID=-100123\n".toList

/-- One step of `load_env`'s folding loop. -/
def envStep (m : Dict) (line : Str) : Dict :=
  match lineKV line with
  | some kv => dictInsert m kv.1 kv.2
  | none => m

/-- The last key/value binding a list of lines produces for key `q`: the spec
side of the last-occurrence-wins property. -/
def lastBind (ls : List Str) (q : Str) : Option Str :=
  ((ls.filterMap lineKV).reverse.find? fun p => decide (p.1 = q)).map Prod.snd

/-! ### Lemmas about stripping, line splitting and the dict -/

lemma head_false_of_dropWhile_cons_eq {p : Char → Bool} {c : Char} {t : Str}
    (h : (c :: t).dropWhile p = c :: t) : p c = false := by
  by_contra hc
  have hc' : p c = true := by
    cases hpc : p c with
    | false => exact absurd hpc hc
    | true => rfl
  rw [List.dropWhile_cons, hc'] at h
  simp only [if_true] at h
  have hlen : (t.dropWhile p).length ≤ t.length :=
    (List.dropWhile_suffix p).sublist.length_le
  have : (c :: t).length ≤ t.length := h ▸ hlen
  simp at this

lemma strip_parts {s : Str} (h : pyStrip s = s) :
    s.dropWhile ws = s ∧ s.reverse.dropWhile ws = s.reverse := by
  have hsuf1 : s.dropWhile ws <:+ s := List.dropWhile_suffix ws
  have hsuf2 : (s.dropWhile ws).reverse.dropWhile ws <:+ (s.dropWhile ws).reverse :=
    List.dropWhile_suffix ws
  have hlen : ((s.dropWhile ws).reverse.dropWhile ws).reverse.length = s.length := by
    rw [pyStrip] at h; rw [h]
  have hle1 : ((s.dropWhile ws).reverse.dropWhile ws).length ≤ (s.dropWhile ws).length := by
    have := hsuf2.sublist.length_le
    simpa using this
  have hle2 : (s.dropWhile ws).length ≤ s.length := hsuf1.sublist.length_le
  rw [List.length_reverse] at hlen
  have hlena : (s.dropWhile ws).length = s.length := by omega
  have ha : s.dropWhile ws = s := hsuf1.eq_of_length hlena
  refine ⟨ha, ?_⟩
  rw [ha] at hsuf2 hlen
  exact hsuf2.eq_of_length (by simpa using hlen)

lemma dropWhile_append_line {k v : Str} (hk : k.dropWhile ws = k) :
    (k ++ '=' :: v).dropWhile ws = k ++ '=' :: v := by
  cases k with
  | nil => simp [List.dropWhile_cons, ws]
  | cons c t =>
      have hc : ws c = false := head_false_of_dropWhile_cons_eq hk
      simp [List.dropWhile_cons, hc]

lemma strip_append_line {k v : Str} (hk : pyStrip k = k) (hv : pyStrip v = v) :
    pyStrip (k ++ '=' :: v) = k ++ '=' :: v := by
  have h1 : (k ++ '=' :: v).dropWhile ws = k ++ '=' :: v :=
    dropWhile_append_line (strip_parts hk).1
  have hrev : (k ++ '=' :: v).reverse = v.reverse ++ '=' :: k.reverse := by
    simp
  have h2 : (k ++ '=' :: v).reverse.dropWhile ws = (k ++ '=' :: v).reverse := by
    rw [hrev]
    cases hvr : v.reverse with
    | nil => simp [List.dropWhile_cons, ws]
    | cons c t =>
        have hv2 : v.reverse.dropWhile ws = v.reverse := (strip_parts hv).2
        rw [hvr] at hv2
        have hc : ws c = false := head_false_of_dropWhile_cons_eq hv2
        simp [List.dropWhile_cons, hc]
  rw [pyStrip, h1, h2, List.reverse_reverse]

lemma splitFirstEq_append {k : Str} (v : Str) (hk : '=' ∉ k) :
    splitFirstEq (k ++ '=' :: v) = (k, v) := by
  induction k with
  | nil => simp [splitFirstEq]
  | cons c t ih =>
      have hc : c ≠ '=' := fun h => hk (h ▸ List.mem_cons_self c t)
      have ht : '=' ∉ t := fun h => hk (List.mem_cons_of_mem c h)
      simp [splitFirstEq, hc, ih ht]

lemma splitFirstEq_spec {l : Str} (h : '=' ∈ l) :
    l = (splitFirstEq l).1 ++ '=' :: (splitFirstEq l).2 ∧ '=' ∉ (splitFirstEq l).1 := by
  induction l with
  | nil => cases h
  | cons c t ih =>
      by_cases hc : c = '='
      · subst hc; simp [splitFirstEq]
      · have ht : '=' ∈ t := by
          rcases List.mem_cons.mp h with h1 | h1
          · exact absurd h1.symm hc
          · exact h1
        have := ih ht
        refine ⟨?_, ?_⟩
        · simp only [splitFirstEq, if_neg hc]
          exact congrArg (c :: ·) this.1
        · simp only [splitFirstEq, if_neg hc]
          intro hmem
          rcases List.mem_cons.mp hmem with h1 | h1
          · exact hc h1.symm
          · exact this.2 h1

lemma splitLinesAux_append (a b : Str) :
    ∀ acc, splitLinesAux (a ++ '\n' :: b) acc = splitLinesAux a acc ++ splitLines b := by
  induction a with
  | nil => intro acc; simp [splitLinesAux, splitLines]
  | cons c t ih =>
      intro acc
      by_cases hc : c = '\n'
      · subst hc; simp [splitLinesAux, ih]
      · simp [splitLinesAux, hc, ih]

lemma splitLines_append (a b : Str) :
    splitLines (a ++ '\n' :: b) = splitLines a ++ splitLines b :=
  splitLinesAux_append a b []

lemma splitLinesAux_no_newline {l : Str} (h : '\n' ∉ l) :
    ∀ acc, splitLinesAux l acc = [acc.reverse ++ l] := by
  induction l with
  | nil => intro acc; simp [splitLinesAux]
  | cons c t ih =>
      intro acc
      have hc : c ≠ '\n' := fun hcc => h (hcc ▸ List.mem_cons_self c t)
      have ht : '\n' ∉ t := fun hm => h (List.mem_cons_of_mem c hm)
      simp [splitLinesAux, hc, ih ht]

lemma splitLines_no_newline {l : Str} (h : '\n' ∉ l) : splitLines l = [l] := by
  simpa using splitLinesAux_no_newline h []

lemma dictGet_dictInsert (m : Dict) (k v q dflt : Str) :
    dictGet (dictInsert m k v) q dflt = if k = q then v else dictGet m q dflt := by
  induction m with
  | nil => by_cases h : k = q <;> simp [dictInsert, dictGet, h]
  | cons p rest ih =>
      obtain ⟨k', v'⟩ := p
      by_cases h1 : k' = k
      · subst h1
        by_cases h2 : k' = q <;> simp [dictInsert, dictGet, h2]
      · by_cases h2 : k' = q
        · subst h2
          have : ¬ k = k' := fun h => h1 h.symm
          simp [dictInsert, dictGet, h1, this]
        · simp [dictInsert, dictGet, h1, h2, ih]

lemma mem_keys_dictInsert {x : Str} (m : Dict) (k v : Str) :
    x ∈ (dictInsert m k v).map Prod.fst ↔ x ∈ m.map Prod.fst ∨ x = k := by
  induction m with
  | nil => simp [dictInsert]
  | cons p rest ih =>
      obtain ⟨k', v'⟩ := p
      by_cases h1 : k' = k
      · subst h1; simp [dictInsert]; tauto
      · simp [dictInsert, h1, ih]; tauto

lemma nodup_keys_dictInsert {m : Dict} (k v : Str)
    (h : (m.map Prod.fst).Nodup) : ((dictInsert m k v).map Prod.fst).Nodup := by
  induction m with
  | nil => simp [dictInsert]
  | cons p rest ih =>
      obtain ⟨k', v'⟩ := p
      simp only [List.map_cons, List.nodup_cons] at h
      by_cases h1 : k' = k
      · subst h1; simpa [dictInsert] using h
      · simp only [dictInsert, if_neg h1, List.map_cons, List.nodup_cons]
        refine ⟨?_, ih h.2⟩
        rw [mem_keys_dictInsert]
        rintro (hm | hm)
        · exact h.1 hm
        · exact h1 hm

lemma parseEnv_eq_foldl (content : Str) :
    parseEnv content = (splitLines content).foldl envStep [] := by
  rfl

lemma nodup_keys_foldl (ls : List Str) :
    ∀ m : Dict, (m.map Prod.fst).Nodup → ((ls.foldl envStep m).map Prod.fst).Nodup := by
  induction ls with
  | nil => intro m h; simpa using h
  | cons l rest ih =>
      intro m h
      simp only [List.foldl_cons]
      cases hkv : lineKV l with
      | none =>
          rw [show envStep m l = m from by simp [envStep, hkv]]
          exact ih m h
      | some kv =>
          rw [show envStep m l = dictInsert m kv.1 kv.2 from by simp [envStep, hkv]]
          exact ih _ (nodup_keys_dictInsert kv.1 kv.2 h)

lemma dictGet_foldl (ls : List Str) (q dflt : Str) :
    ∀ m : Dict, dictGet (ls.foldl envStep m) q dflt = (lastBind ls q).getD (dictGet m q dflt) := by
  induction ls with
  | nil => intro m; simp [lastBind]
  | cons l rest ih =>
      intro m
      simp only [List.foldl_cons]
      cases hkv : lineKV l with
      | none =>
          rw [show envStep m l = m by simp [envStep, hkv]]
          rw [ih m]
          simp [lastBind, List.filterMap_cons, hkv]
      | some kv =>
          obtain ⟨k, v⟩ := kv
          rw [show envStep m l = dictInsert m k v by simp [envStep, hkv]]
          rw [ih _]
          rw [dictGet_dictInsert]
          simp only [lastBind, List.filterMap_cons, hkv, List.reverse_cons, List.find?_append]
          cases hfind : (rest.filterMap lineKV).reverse.find? fun p => decide (p.1 = q) with
          | some w => simp [hfind]
          | none =>
              by_cases hq : k = q
              · subst hq; simp [hfind]
              · simp [hfind, hq]

lemma lineKV_line {k v : Str} (hk : pyStrip k = k) (hv : pyStrip v = v)
    (hke : '=' ∉ k) (hkh : k.head? ≠ some '#') :
    lineKV (k ++ '=' :: v) = some (k, v) := by
  have hstrip : pyStrip (k ++ '=' :: v) = k ++ '=' :: v := strip_append_line hk hv
  have h1 : k ++ '=' :: v ≠ [] := by cases k <;> simp
  have h2 : (k ++ '=' :: v).head? ≠ some '#' := by
    cases k with
    | nil => simp
    | cons c t =>
        simp only [List.cons_append, List.head?_cons]
        simpa using hkh
  have h3 : '=' ∈ k ++ '=' :: v := by simp
  simp only [lineKV, hstrip]
  rw [if_pos ⟨h1, h2, h3⟩, splitFirstEq_append v hke]

lemma sublist_pyStrip (s : Str) : (pyStrip s).Sublist s := by
  have h1 : (s.dropWhile ws).Sublist s := (List.dropWhile_suffix ws).sublist
  have h2 : ((s.dropWhile ws).reverse.dropWhile ws).Sublist (s.dropWhile ws).reverse :=
    (List.dropWhile_suffix ws).sublist
  have h3 : ((s.dropWhile ws).reverse.dropWhile ws).reverse.Sublist (s.dropWhile ws) := by
    simpa using h2.reverse
  exact h3.trans h1

/-! ### Characterization of the runner -/

lemma premiumMsgs_only_out {me : Me} {e : Ev} (h : e ∈ premiumMsgs me) : ∃ s, e = .out s := by
  unfold premiumMsgs at h
  by_cases hp : me.premium_attr_present && me.premium
  · rw [if_pos hp] at h; simp at h; exact ⟨_, h⟩
  · rw [if_neg hp] at h; simp at h
    rcases h with h | h <;> exact ⟨_, h⟩

lemma handlerEvents_only_out {c : Ctl} {e : Ev} (h : e ∈ handlerEvents c) : ∃ s, e = .out s := by
  match c with
  | .done => cases h
  | .raised .keyboardInterrupt => simp [handlerEvents] at h; exact ⟨_, h⟩
  | .raised (.exn m) =>
      simp [handlerEvents, troubleshootingMsgs] at h
      rcases h with h | h | h | h | h | h <;> exact ⟨_, h⟩

lemma backupCheck_cases (env : Dict) (w : World) :
    (dictGet env kBACKUP [] = [] ∧ backupCheck env w = ([.lookupEnv kBACKUP], .done)) ∨
    (dictGet env kBACKUP [] ≠ [] ∧ pyInt (dictGet env kBACKUP []) = none ∧
      backupCheck env w =
        ([.lookupEnv kBACKUP, .out (testingMsg (dictGet env kBACKUP [])),
          .out (warnPrefixMsg ++ valueErrorMsg (dictGet env kBACKUP [])),
          .out makeSureMsg], .done)) ∨
    (dictGet env kBACKUP [] ≠ [] ∧ ∃ i, pyInt (dictGet env kBACKUP []) = some i ∧
      w.entity i = .ok () ∧
      backupCheck env w =
        ([.lookupEnv kBACKUP, .out (testingMsg (dictGet env kBACKUP [])),
          .callGetEntity i, .out confirmedMsg], .done)) ∨
    (dictGet env kBACKUP [] ≠ [] ∧ ∃ i m, pyInt (dictGet env kBACKUP []) = some i ∧
      w.entity i = .error (.exn m) ∧
      backupCheck env w =
        ([.lookupEnv kBACKUP, .out (testingMsg (dictGet env kBACKUP [])),
          .callGetEntity i, .out (warnPrefixMsg ++ m), .out makeSureMsg], .done)) ∨
    (dictGet env kBACKUP [] ≠ [] ∧ ∃ i, pyInt (dictGet env kBACKUP []) = some i ∧
      w.entity i = .error .keyboardInterrupt ∧
      backupCheck env w =
        ([.lookupEnv kBACKUP, .out (testingMsg (dictGet env kBACKUP [])),
          .callGetEntity i], .raised .keyboardInterrupt)) := by
  by_cases hbc : dictGet env kBACKUP [] = []
  · exact Or.inl ⟨hbc, by simp [backupCheck, hbc]⟩
  · cases hint : pyInt (dictGet env kBACKUP []) with
    | none =>
        exact Or.inr (Or.inl ⟨hbc, rfl, by simp [backupCheck, hbc, hint]⟩)
    | some i =>
        rcases hent : w.entity i with e | u
        · cases e with
          | keyboardInterrupt =>
              refine Or.inr (Or.inr (Or.inr (Or.inr ⟨hbc, i, rfl, hent, ?_⟩)))
              simp [backupCheck, hbc, hint, hent]
          | exn m =>
              refine Or.inr (Or.inr (Or.inr (Or.inl ⟨hbc, i, m, rfl, hent, ?_⟩)))
              simp [backupCheck, hbc, hint, hent]
        · cases u
          refine Or.inr (Or.inr (Or.inl ⟨hbc, i, rfl, hent, ?_⟩))
          simp [backupCheck, hbc, hint, hent]

lemma tryBody_cases (c : Str) (env : Dict) (w : World) :
    (∃ e, w.start = .error e ∧
      tryBody c env w = ([.out authStartingMsg, .callStart], some c, .raised e)) ∨
    (w.start = .ok () ∧ ∃ e, w.authorized = .error e ∧
      tryBody c env w =
        ([.out authStartingMsg, .callStart, .callIsAuthorized], some c, .raised e)) ∨
    (w.start = .ok () ∧ w.authorized = .ok false ∧
      tryBody c env w =
        ([.out authStartingMsg, .callStart, .callIsAuthorized, .out authFailedMsg],
          some c, .done)) ∨
    (w.start = .ok () ∧ w.authorized = .ok true ∧ ∃ e, w.me = .error e ∧
      tryBody c env w =
        ([.out authStartingMsg, .callStart, .callIsAuthorized, .out authOkMsg, .callGetMe],
          some c, .raised e)) ∨
    (w.start = .ok () ∧ w.authorized = .ok true ∧ ∃ me, w.me = .ok me ∧
      tryBody c env w =
        (([.out authStartingMsg, .callStart, .callIsAuthorized, .out authOkMsg, .callGetMe,
           .out (authedAsMsg me), .out (usernameMsg me), .out (userIdMsg me)] ++
          premiumMsgs me ++
          [.appendEnvFile (sessChunk w.session_string), .out savedMsg, .out completedMsg]) ++
          (backupCheck env w).1,
          some (c ++ sessChunk w.session_string), (backupCheck env w).2)) := by
  rcases hs : w.start with e | u
  · exact Or.inl ⟨e, rfl, by simp [tryBody, hs]⟩
  · cases u
    rcases ha : w.authorized with e | b
    · exact Or.inr (Or.inl ⟨rfl, e, rfl, by simp [tryBody, hs, ha]⟩)
    · cases b with
      | false => exact Or.inr (Or.inr (Or.inl ⟨rfl, rfl, by simp [tryBody, hs, ha]⟩))
      | true =>
          rcases hm : w.me with e | me
          · exact Or.inr (Or.inr (Or.inr (Or.inl ⟨rfl, rfl, e, rfl,
              by simp [tryBody, hs, ha, hm]⟩)))
          · refine Or.inr (Or.inr (Or.inr (Or.inr ⟨rfl, rfl, me, rfl, ?_⟩)))
            simp [tryBody, hs, ha, hm]

lemma run_cases (fs : Option Str) (w : World) :
    (fs = none ∧ setup_session fs w =
      { trace := banner ++ [.readEnvFile, .out envNotFoundMsg],
        fs := none, exit := .exited 1 }) ∨
    (∃ c, fs = some c ∧ pyInt (dictGet (parseEnv c) kAPI_ID []) = none ∧
      setup_session fs w =
        { trace := banner ++ [.readEnvFile, .lookupEnv kAPI_ID, .out missingCredsMsg],
          fs := some c, exit := .exited 1 }) ∨
    (∃ c i, fs = some c ∧ pyInt (dictGet (parseEnv c) kAPI_ID []) = some i ∧
      (i = 0 ∨ dictGet (parseEnv c) kAPI_HASH [] = []) ∧
      setup_session fs w =
        { trace := banner ++ [.readEnvFile, .lookupEnv kAPI_ID, .lookupEnv kAPI_HASH,
            .out invalidCredsMsg],
          fs := some c, exit := .exited 1 }) ∨
    (∃ c i, fs = some c ∧ pyInt (dictGet (parseEnv c) kAPI_ID []) = some i ∧
      ¬(i = 0 ∨ dictGet (parseEnv c) kAPI_HASH [] = []) ∧
      setup_session fs w =
        { trace := preTrace i (dictGet (parseEnv c) kAPI_HASH []) ++
            (tryBody c (parseEnv c) w).1 ++
            handlerEvents (tryBody c (parseEnv c) w).2.2 ++ [.callDisconnect],
          fs := (tryBody c (parseEnv c) w).2.1, exit := .normal }) := by
  cases fs with
  | none => exact Or.inl ⟨rfl, by simp [setup_session]⟩
  | some c =>
      cases hint : pyInt (dictGet (parseEnv c) kAPI_ID []) with
      | none =>
          exact Or.inr (Or.inl ⟨c, rfl, hint, by simp [setup_session, hint]⟩)
      | some i =>
          by_cases hinv : i = 0 ∨ dictGet (parseEnv c) kAPI_HASH [] = []
          · refine Or.inr (Or.inr (Or.inl ⟨c, i, rfl, hint, hinv, ?_⟩))
            simp [setup_session, hint, hinv]
          · refine Or.inr (Or.inr (Or.inr ⟨c, i, rfl, hint, hinv, ?_⟩))
            simp [setup_session, hint, hinv, preTrace]

lemma countP_zero_of_mem {l : List Ev} {p : Ev → Bool}
    (h : ∀ e ∈ l, p e = false) : l.countP p = 0 :=
  List.countP_eq_zero.mpr (by intro a ha; simp [h a ha])

lemma preTrace_mem {i : Int} {h : Str} {e : Ev} (hm : e ∈ preTrace i h) :
    (∃ s, e = Ev.out s) ∨ e = Ev.readEnvFile ∨
      e = Ev.lookupEnv kAPI_ID ∨ e = Ev.lookupEnv kAPI_HASH := by
  simp [preTrace, banner] at hm
  rcases hm with h1 | h1 | h1 | h1 | h1 | h1 | h1 | h1 | h1 <;>
    subst h1 <;> simp

lemma backupCheck_mem {env : Dict} {w : World} {e : Ev}
    (h : e ∈ (backupCheck env w).1) :
    (∃ s, e = Ev.out s) ∨ e = Ev.lookupEnv kBACKUP ∨ ∃ i, e = Ev.callGetEntity i := by
  rcases backupCheck_cases env w with ⟨_, heq⟩ | ⟨_, _, heq⟩ | ⟨_, i, _, _, heq⟩ |
    ⟨_, i, m, _, _, heq⟩ | ⟨_, i, _, _, heq⟩
  · rw [heq] at h; simp at h; subst h; simp
  · rw [heq] at h; simp at h
    rcases h with h1 | h1 | h1 | h1 <;> subst h1 <;> simp
  · rw [heq] at h; simp at h
    rcases h with h1 | h1 | h1 | h1 <;> subst h1 <;> simp
  · rw [heq] at h; simp at h
    rcases h with h1 | h1 | h1 | h1 | h1 <;> subst h1 <;> simp
  · rw [heq] at h; simp at h
    rcases h with h1 | h1 | h1 <;> subst h1 <;> simp

lemma tryBody_mem {c : Str} {env : Dict} {w : World} {e : Ev}
    (h : e ∈ (tryBody c env w).1) :
    (∃ s, e = Ev.out s) ∨ e = Ev.callStart ∨ e = Ev.callIsAuthorized ∨
      e = Ev.callGetMe ∨ (∃ s, e = Ev.appendEnvFile s) ∨
      e = Ev.lookupEnv kBACKUP ∨ ∃ i, e = Ev.callGetEntity i := by
  rcases tryBody_cases c env w with ⟨e1, _, htb⟩ | ⟨_, e1, _, htb⟩ |
    ⟨_, _, htb⟩ | ⟨_, _, e1, _, htb⟩ | ⟨_, _, me, _, htb⟩
  · rw [htb] at h; simp at h
    rcases h with h1 | h1 <;> subst h1 <;> simp
  · rw [htb] at h; simp at h
    rcases h with h1 | h1 | h1 <;> subst h1 <;> simp
  · rw [htb] at h; simp at h
    rcases h with h1 | h1 | h1 | h1 <;> subst h1 <;> simp
  · rw [htb] at h; simp at h
    rcases h with h1 | h1 | h1 | h1 | h1 <;> subst h1 <;> simp
  · rw [htb] at h
    rcases List.mem_append.mp h with h1 | h1
    · rcases List.mem_append.mp h1 with h2 | h2
      · rcases List.mem_append.mp h2 with h3 | h3
        · simp at h3
          rcases h3 with h4 | h4 | h4 | h4 | h4 | h4 | h4 | h4 <;> subst h4 <;> simp
        · rcases premiumMsgs_only_out h3 with ⟨s, rfl⟩; simp
      · simp at h2
        rcases h2 with h4 | h4 | h4 <;> subst h4 <;> simp
    · rcases backupCheck_mem h1 with ⟨s, rfl⟩ | rfl | ⟨i, rfl⟩ <;> simp

lemma setup_mem {fs : Option Str} {w : World} {e : Ev}
    (h : e ∈ (setup_session fs w).trace) :
    (∃ s, e = Ev.out s) ∨ e = Ev.readEnvFile ∨
      e = Ev.lookupEnv kAPI_ID ∨ e = Ev.lookupEnv kAPI_HASH ∨ e = Ev.lookupEnv kBACKUP ∨
      e = Ev.callStart ∨ e = Ev.callIsAuthorized ∨ e = Ev.callGetMe ∨
      (∃ s, e = Ev.appendEnvFile s) ∨ (∃ i, e = Ev.callGetEntity i) ∨
      e = Ev.callDisconnect := by
  rcases run_cases fs w with ⟨_, heq⟩ | ⟨c, _, _, heq⟩ | ⟨c, i, _, _, _, heq⟩ |
    ⟨c, i, _, _, _, heq⟩
  · rw [heq] at h; simp [banner] at h
    rcases h with h1 | h1 | h1 | h1 | h1 | h1 <;> subst h1 <;> simp
  · rw [heq] at h; simp [banner] at h
    rcases h with h1 | h1 | h1 | h1 | h1 | h1 | h1 <;> subst h1 <;> simp
  · rw [heq] at h; simp [banner] at h
    rcases h with h1 | h1 | h1 | h1 | h1 | h1 | h1 | h1 <;> subst h1 <;> simp
  · rw [heq] at h
    rcases List.mem_append.mp h with h1 | h1
    · rcases List.mem_append.mp h1 with h2 | h2
      · rcases List.mem_append.mp h2 with h3 | h3
        · rcases preTrace_mem h3 with ⟨s, rfl⟩ | rfl | rfl | rfl <;> simp
        · rcases tryBody_mem h3 with ⟨s, rfl⟩ | rfl | rfl | rfl | ⟨s, rfl⟩ | rfl |
            ⟨j, rfl⟩ <;> simp
      · rcases handlerEvents_only_out h2 with ⟨s, rfl⟩; simp
    · simp at h1; subst h1; simp

lemma final_fs_cases (fs : Option Str) (w : World) :
    (setup_session fs w).fs = fs ∨
      ∃ c, fs = some c ∧
        (setup_session fs w).fs = some (c ++ sessChunk w.session_string) := by
  rcases run_cases fs w with ⟨hfs, heq⟩ | ⟨c, hfs, _, heq⟩ | ⟨c, i, hfs, _, _, heq⟩ |
    ⟨c, i, hfs, _, _, heq⟩
  · left; rw [heq, hfs]
  · left; rw [heq, hfs]
  · left; rw [heq, hfs]
  · rcases tryBody_cases c (parseEnv c) w with ⟨e, _, htb⟩ | ⟨_, e, _, htb⟩ |
      ⟨_, _, htb⟩ | ⟨_, _, e, _, htb⟩ | ⟨_, _, me, _, htb⟩
    · left; rw [heq, hfs, htb]
    · left; rw [heq, hfs, htb]
    · left; rw [heq, hfs, htb]
    · left; rw [heq, hfs, htb]
    · right; exact ⟨c, hfs, by rw [heq, htb]⟩

lemma countP_premium_zero {me : Me} {p : Ev → Bool}
    (hout : ∀ s, p (Ev.out s) = false) : (premiumMsgs me).countP p = 0 :=
  countP_zero_of_mem fun e he => by
    rcases premiumMsgs_only_out he with ⟨s, rfl⟩; exact hout s

lemma countP_handler_zero {c : Ctl} {p : Ev → Bool}
    (hout : ∀ s, p (Ev.out s) = false) : (handlerEvents c).countP p = 0 :=
  countP_zero_of_mem fun e he => by
    rcases handlerEvents_only_out he with ⟨s, rfl⟩; exact hout s

lemma countP_backupCheck_zero {env : Dict} {w : World} {p : Ev → Bool}
    (hout : ∀ s, p (Ev.out s) = false) (hlk : p (Ev.lookupEnv kBACKUP) = false)
    (hent : ∀ i, p (Ev.callGetEntity i) = false) :
    ((backupCheck env w).1).countP p = 0 :=
  countP_zero_of_mem fun e he => by
    rcases backupCheck_mem he with ⟨s, rfl⟩ | rfl | ⟨i, rfl⟩
    · exact hout s
    · exact hlk
    · exact hent i

lemma countP_entity_backupCheck (env : Dict) (w : World) :
    ((backupCheck env w).1).countP isEntityEv ≤ 1 := by
  rcases backupCheck_cases env w with ⟨_, heq⟩ | ⟨_, _, heq⟩ | ⟨_, i, _, _, heq⟩ |
    ⟨_, i, m, _, _, heq⟩ | ⟨_, i, _, _, heq⟩ <;>
    rw [heq] <;> simp [List.countP_cons, isEntityEv]

lemma countP_tryBody_zero {c : Str} {env : Dict} {w : World} {p : Ev → Bool}
    (hout : ∀ s, p (Ev.out s) = false) (hst : p Ev.callStart = false)
    (hau : p Ev.callIsAuthorized = false) (hgm : p Ev.callGetMe = false)
    (happ : ∀ s, p (Ev.appendEnvFile s) = false)
    (hlk : p (Ev.lookupEnv kBACKUP) = false)
    (hent : ∀ i, p (Ev.callGetEntity i) = false) :
    ((tryBody c env w).1).countP p = 0 :=
  countP_zero_of_mem fun e he => by
    rcases tryBody_mem he with ⟨s, rfl⟩ | rfl | rfl | rfl | ⟨s, rfl⟩ | rfl | ⟨i, rfl⟩
    · exact hout s
    · exact hst
    · exact hau
    · exact hgm
    · exact happ s
    · exact hlk
    · exact hent i

lemma countP_append_tryBody (c : Str) (env : Dict) (w : World) :
    ((tryBody c env w).1).countP isAppendEv ≤ 1 := by
  rcases tryBody_cases c env w with ⟨e, _, htb⟩ | ⟨_, e, _, htb⟩ |
    ⟨_, _, htb⟩ | ⟨_, _, e, _, htb⟩ | ⟨_, _, me, _, htb⟩ <;> rw [htb]
  · simp [List.countP_cons, isAppendEv]
  · simp [List.countP_cons, isAppendEv]
  · simp [List.countP_cons, isAppendEv]
  · simp [List.countP_cons, isAppendEv]
  · simp only [List.countP_append]
    rw [countP_premium_zero (fun s => rfl),
      countP_backupCheck_zero (fun s => rfl) rfl (fun i => rfl)]
    simp [List.countP_cons, isAppendEv]

lemma countP_read_trace (fs : Option Str) (w : World) :
    (setup_session fs w).trace.countP isReadEv = 1 := by
  rcases run_cases fs w with ⟨_, heq⟩ | ⟨c, _, _, heq⟩ | ⟨c, i, _, _, _, heq⟩ |
    ⟨c, i, _, _, _, heq⟩ <;> rw [heq]
  · simp [banner, List.countP_cons, isReadEv]
  · simp [banner, List.countP_cons, isReadEv]
  · simp [banner, List.countP_cons, isReadEv]
  · simp only [List.countP_append]
    rw [countP_tryBody_zero (fun s => rfl) rfl rfl rfl (fun s => rfl) rfl (fun i => rfl),
      countP_handler_zero (fun s => rfl)]
    simp [preTrace, banner, List.countP_cons, isReadEv]

lemma countP_append_trace (fs : Option Str) (w : World) :
    (setup_session fs w).trace.countP isAppendEv ≤ 1 := by
  rcases run_cases fs w with ⟨_, heq⟩ | ⟨c, _, _, heq⟩ | ⟨c, i, _, _, _, heq⟩ |
    ⟨c, i, _, _, _, heq⟩ <;> rw [heq]
  · simp [banner, List.countP_cons, isAppendEv]
  · simp [banner, List.countP_cons, isAppendEv]
  · simp [banner, List.countP_cons, isAppendEv]
  · simp only [List.countP_append]
    rw [countP_handler_zero (fun s => rfl)]
    have hpre : (preTrace i (dictGet (parseEnv c) kAPI_HASH [])).countP isAppendEv = 0 := by
      simp [preTrace, banner, List.countP_cons, isAppendEv]
    rw [hpre]
    have htb := countP_append_tryBody c (parseEnv c) w
    simp [List.countP_cons, isAppendEv]
    omega

lemma appendBeforeEntity_append {A B : List Ev}
    (hA : ∀ e ∈ A, isAppendEv e = false ∧ isEntityEv e = false) :
    appendBeforeEntity (A ++ B) = appendBeforeEntity B := by
  induction A with
  | nil => simp
  | cons e rest ih =>
      have he := hA e (List.mem_cons_self e rest)
      have hrest : ∀ x ∈ rest, isAppendEv x = false ∧ isEntityEv x = false :=
        fun x hx => hA x (List.mem_cons_of_mem e hx)
      cases e with
      | appendEnvFile s => exact absurd he.1 (by simp [isAppendEv])
      | callGetEntity i => exact absurd he.2 (by simp [isEntityEv])
      | out s => simpa [appendBeforeEntity] using ih hrest
      | readEnvFile => simpa [appendBeforeEntity] using ih hrest
      | lookupEnv k => simpa [appendBeforeEntity] using ih hrest
      | callStart => simpa [appendBeforeEntity] using ih hrest
      | callIsAuthorized => simpa [appendBeforeEntity] using ih hrest
      | callGetMe => simpa [appendBeforeEntity] using ih hrest
      | callDisconnect => simpa [appendBeforeEntity] using ih hrest
      | runPipInstall => simpa [appendBeforeEntity] using ih hrest

lemma appendBeforeEntity_of_no_entity {l : List Ev}
    (h : ∀ i, Ev.callGetEntity i ∉ l) : appendBeforeEntity l = true := by
  induction l with
  | nil => rfl
  | cons e rest ih =>
      have hrest : ∀ i, Ev.callGetEntity i ∉ rest :=
        fun i hi => h i (List.mem_cons_of_mem e hi)
      cases e with
      | appendEnvFile s => rfl
      | callGetEntity i => exact absurd (List.mem_cons_self _ _) (h i)
      | out s => simpa [appendBeforeEntity] using ih hrest
      | readEnvFile => simpa [appendBeforeEntity] using ih hrest
      | lookupEnv k => simpa [appendBeforeEntity] using ih hrest
      | callStart => simpa [appendBeforeEntity] using ih hrest
      | callIsAuthorized => simpa [appendBeforeEntity] using ih hrest
      | callGetMe => simpa [appendBeforeEntity] using ih hrest
      | callDisconnect => simpa [appendBeforeEntity] using ih hrest
      | runPipInstall => simpa [appendBeforeEntity] using ih hrest

lemma takeWhile_append_of_all {p : Ev → Bool} {A B : List Ev}
    (h : ∀ e ∈ A, p e = true) : (A ++ B).takeWhile p = A ++ B.takeWhile p := by
  induction A with
  | nil => simp
  | cons e rest ih =>
      have he := h e (List.mem_cons_self e rest)
      simp [List.takeWhile_cons, he,
        ih fun x hx => h x (List.mem_cons_of_mem e hx)]

lemma countP_start_tryBody (c : Str) (env : Dict) (w : World) :
    ((tryBody c env w).1).countP isStartEv ≤ 1 := by
  rcases tryBody_cases c env w with ⟨e, _, htb⟩ | ⟨_, e, _, htb⟩ |
    ⟨_, _, htb⟩ | ⟨_, _, e, _, htb⟩ | ⟨_, _, me, _, htb⟩ <;> rw [htb]
  · simp [List.countP_cons, isStartEv]
  · simp [List.countP_cons, isStartEv]
  · simp [List.countP_cons, isStartEv]
  · simp [List.countP_cons, isStartEv]
  · simp only [List.countP_append]
    rw [countP_premium_zero (fun s => rfl),
      countP_backupCheck_zero (fun s => rfl) rfl (fun i => rfl)]
    simp [List.countP_cons, isStartEv]

lemma countP_auth_tryBody (c : Str) (env : Dict) (w : World) :
    ((tryBody c env w).1).countP isAuthEv ≤ 1 := by
  rcases tryBody_cases c env w with ⟨e, _, htb⟩ | ⟨_, e, _, htb⟩ |
    ⟨_, _, htb⟩ | ⟨_, _, e, _, htb⟩ | ⟨_, _, me, _, htb⟩ <;> rw [htb]
  · simp [List.countP_cons, isAuthEv]
  · simp [List.countP_cons, isAuthEv]
  · simp [List.countP_cons, isAuthEv]
  · simp [List.countP_cons, isAuthEv]
  · simp only [List.countP_append]
    rw [countP_premium_zero (fun s => rfl),
      countP_backupCheck_zero (fun s => rfl) rfl (fun i => rfl)]
    simp [List.countP_cons, isAuthEv]

lemma countP_getme_tryBody (c : Str) (env : Dict) (w : World) :
    ((tryBody c env w).1).countP isGetMeEv ≤ 1 := by
  rcases tryBody_cases c env w with ⟨e, _, htb⟩ | ⟨_, e, _, htb⟩ |
    ⟨_, _, htb⟩ | ⟨_, _, e, _, htb⟩ | ⟨_, _, me, _, htb⟩ <;> rw [htb]
  · simp [List.countP_cons, isGetMeEv]
  · simp [List.countP_cons, isGetMeEv]
  · simp [List.countP_cons, isGetMeEv]
  · simp [List.countP_cons, isGetMeEv]
  · simp only [List.countP_append]
    rw [countP_premium_zero (fun s => rfl),
      countP_backupCheck_zero (fun s => rfl) rfl (fun i => rfl)]
    simp [List.countP_cons, isGetMeEv]

lemma countP_entity_tryBody (c : Str) (env : Dict) (w : World) :
    ((tryBody c env w).1).countP isEntityEv ≤ 1 := by
  rcases tryBody_cases c env w with ⟨e, _, htb⟩ | ⟨_, e, _, htb⟩ |
    ⟨_, _, htb⟩ | ⟨_, _, e, _, htb⟩ | ⟨_, _, me, _, htb⟩ <;> rw [htb]
  · simp [List.countP_cons, isEntityEv]
  · simp [List.countP_cons, isEntityEv]
  · simp [List.countP_cons, isEntityEv]
  · simp [List.countP_cons, isEntityEv]
  · simp only [List.countP_append]
    rw [countP_premium_zero (fun s => rfl)]
    have := countP_entity_backupCheck env w
    simp [List.countP_cons, isEntityEv]
    omega

/-! ### Claim theorems about config-file parsing -/

/-- C2: config-file parsing round-trips key=value lines.  For every key `k`
with no `'='`, not starting with `'#'`, with no surrounding whitespace (and no
embedded newline, so that `k=v` is one line), and every value `v` with no
surrounding whitespace (and no embedded newline), parsing a file containing
exactly the line `k=v` binds `k` to `v`; and appending the script's
`USER_SESSION_STRING=s` chunk to any file contents and re-parsing yields `s`
for key `USER_SESSION_STRING`. -/
theorem C2_roundtrip :
    (∀ k v dflt : Str, pyStrip k = k → pyStrip v = v → '=' ∉ k →
        k.head? ≠ some '#' → '\n' ∉ k → '\n' ∉ v →
        dictGet (parseEnv (k ++ '=' :: v)) k dflt = v) ∧
    (∀ c s dflt : Str, pyStrip s = s → '\n' ∉ s →
        dictGet (parseEnv (c ++ sessChunk s)) kSESSION dflt = s) := by
  constructor
  · intro k v dflt hk hv hke hkh hkn hvn
    have hline : '\n' ∉ k ++ '=' :: v := by
      intro hm
      rcases List.mem_append.mp hm with h | h
      · exact hkn h
      · rcases List.mem_cons.mp h with h | h
        · exact absurd h (by decide)
        · exact hvn h
    rw [parseEnv_eq_foldl, splitLines_no_newline hline]
    simp only [List.foldl_cons, List.foldl_nil]
    rw [show envStep [] (k ++ '=' :: v) = dictInsert [] k v from by
      simp [envStep, lineKV_line hk hv hke hkh]]
    simp [dictInsert, dictGet]
  · intro c s dflt hs hsn
    have hline : '\n' ∉ kSESSION ++ '=' :: s := by
      intro hm
      rcases List.mem_append.mp hm with h | h
      · exact absurd h (by decide)
      · rcases List.mem_cons.mp h with h | h
        · exact absurd h (by decide)
        · exact hsn h
    have hchunk : c ++ sessChunk s = c ++ '\n' :: ((kSESSION ++ '=' :: s) ++ '\n' :: []) := by
      simp [sessChunk]
    rw [parseEnv_eq_foldl, hchunk, splitLines_append, splitLines_append,
      splitLines_no_newline hline]
    rw [show splitLines [] = [[]] from rfl]
    rw [List.foldl_append]
    simp only [List.singleton_append, List.foldl_cons, List.foldl_nil]
    rw [show ∀ m : Dict, envStep m (kSESSION ++ '=' :: s) = dictInsert m kSESSION s from fun m => by
      simp [envStep, @lineKV_line kSESSION s (by decide) hs (by decide) (by decide)]]
    rw [show ∀ m : Dict, envStep m [] = m from fun m => rfl]
    rw [dictGet_dictInsert]
    simp

/-- C2 witness: the round-trip evaluated at the concrete line `AB=x=y` and at
appending a concrete session string to a concrete file. -/
theorem C2_roundtrip_witness :
    dictGet (parseEnv ("AB".toList ++ '=' :: "x=y".toList)) "AB".toList [] = "x=y".toList ∧
    dictGet (parseEnv ("K=1".toList ++ sessChunk "SSS".toList)) kSESSION [] = "SSS".toList :=
  ⟨C2_roundtrip.1 "AB".toList "x=y".toList [] (by decide) (by decide) (by decide)
      (by decide) (by decide) (by decide),
   C2_roundtrip.2 "K=1".toList "SSS".toList [] (by decide) (by decide)⟩

/-- C6: one file read produces a mapping with pairwise-distinct keys, and when
several lines bind the same key, lookup returns the last occurrence's value
(the spec-side `lastBind`). -/
theorem C6_unique_keys :
    ∀ content q dflt : Str,
      ((parseEnv content).map Prod.fst).Nodup ∧
      dictGet (parseEnv content) q dflt = (lastBind (splitLines content) q).getD dflt := by
  intro content q dflt
  constructor
  · rw [parseEnv_eq_foldl]
    exact nodup_keys_foldl (splitLines content) [] (by simp)
  · rw [parseEnv_eq_foldl, dictGet_foldl]
    rfl

/-- C10: each line is split on the first `'='` only, so the value keeps any
later `'='` characters verbatim; stripped-empty lines, lines starting with
`'#'`, and lines with no `'='` bind no key. -/
theorem C10_line_splitting :
    (∀ k v : Str, '=' ∉ k → splitFirstEq (k ++ '=' :: v) = (k, v)) ∧
    (∀ l : Str, pyStrip l = [] → lineKV l = none) ∧
    (∀ l : Str, (pyStrip l).head? = some '#' → lineKV l = none) ∧
    (∀ l : Str, '=' ∉ l → lineKV l = none) ∧
    (∀ l : Str, pyStrip l ≠ [] → (pyStrip l).head? ≠ some '#' → '=' ∈ pyStrip l →
        lineKV l = some (splitFirstEq (pyStrip l)) ∧
        pyStrip l = (splitFirstEq (pyStrip l)).1 ++ '=' :: (splitFirstEq (pyStrip l)).2 ∧
        '=' ∉ (splitFirstEq (pyStrip l)).1) := by
  refine ⟨fun k v hk => splitFirstEq_append v hk, ?_, ?_, ?_, ?_⟩
  · intro l h; simp [lineKV, h]
  · intro l h; simp [lineKV, h]
  · intro l h
    have h2 : '=' ∉ pyStrip l := fun hm => h ((sublist_pyStrip l).subset hm)
    simp [lineKV, h2]
  · intro l h1 h2 h3
    refine ⟨?_, (splitFirstEq_spec h3).1, (splitFirstEq_spec h3).2⟩
    simp only [lineKV]
    rw [if_pos ⟨h1, h2, h3⟩]

/-- C10 witness: the splitting behaviour evaluated on concrete lines. -/
theorem C10_line_splitting_witness :
    splitFirstEq ("A".toList ++ '=' :: "b=c".toList) = ("A".toList, "b=c".toList) ∧
    lineKV "   ".toList = none ∧
    lineKV "# comment".toList = none ∧
    lineKV "plain".toList = none ∧
    lineKV "A=b=c".toList = some ("A".toList, "b=c".toList) :=
  ⟨C10_line_splitting.1 "A".toList "b=c".toList (by decide),
   C10_line_splitting.2.1 "   ".toList (by decide),
   C10_line_splitting.2.2.1 "# comment".toList (by decide),
   C10_line_splitting.2.2.2.1 "plain".toList (by decide),
   ((C10_line_splitting.2.2.2.2 "A=b=c".toList (by decide) (by decide) (by decide)).1).trans
     (by decide)⟩

/-! ### Claim theorems about the setup runner -/

/-- C8: the program never inspects its command-line argument vector, so two
invocations differing only in `argv` produce identical traces, final file
contents and exit statuses. -/
theorem C8_no_cli_dependence :
    ∀ (a1 a2 : List Str) (sys : Sys) (fs : Option Str) (w : World),
      main a1 sys fs w = main a2 sys fs w :=
  fun _ _ _ _ _ => rfl

/-- C9: the `.env` file is modified only after authorization succeeds; on
every other path its contents are exactly the initial ones. -/
theorem C9_file_untouched_on_failure :
    ∀ (fs : Option Str) (w : World),
      (setup_session fs w).fs = fs ∨
      (w.start = .ok () ∧ w.authorized = .ok true ∧ (∃ me, w.me = .ok me) ∧
        ∃ c, fs = some c ∧
          (setup_session fs w).fs = some (c ++ sessChunk w.session_string)) := by
  intro fs w
  rcases run_cases fs w with ⟨hfs, heq⟩ | ⟨c, hfs, _, heq⟩ | ⟨c, i, hfs, _, _, heq⟩ |
    ⟨c, i, hfs, _, _, heq⟩
  · left; rw [heq, hfs]
  · left; rw [heq, hfs]
  · left; rw [heq, hfs]
  · rcases tryBody_cases c (parseEnv c) w with ⟨e, _, htb⟩ | ⟨_, e, _, htb⟩ |
      ⟨_, _, htb⟩ | ⟨_, _, e, _, htb⟩ | ⟨hst, hau, me, hme, htb⟩
    · left; rw [heq, hfs, htb]
    · left; rw [heq, hfs, htb]
    · left; rw [heq, hfs, htb]
    · left; rw [heq, hfs, htb]
    · right
      exact ⟨hst, hau, ⟨me, hme⟩, c, hfs, by rw [heq, htb]⟩

/-- C3: the only configuration keys the program ever looks up are
`TELEGRAM_API_ID`, `TELEGRAM_API_HASH` and `BACKUP_CHANNEL_ID`, and the only
write to the `.env` file is the appended `USER_SESSION_STRING=...` chunk. -/
theorem C3_config_keys :
    ∀ (fs : Option Str) (w : World),
      (∀ k, Ev.lookupEnv k ∈ (setup_session fs w).trace →
          k = kAPI_ID ∨ k = kAPI_HASH ∨ k = kBACKUP) ∧
      ((setup_session fs w).fs = fs ∨
        ∃ c, fs = some c ∧
          (setup_session fs w).fs = some (c ++ sessChunk w.session_string)) := by
  intro fs w
  refine ⟨?_, final_fs_cases fs w⟩
  intro k hk
  rcases setup_mem hk with ⟨s, hs⟩ | hs | hs | hs | hs | hs | hs | hs |
    ⟨s, hs⟩ | ⟨i, hs⟩ | hs <;> simp at hs <;> tauto

/-- C3 witness: on a concrete successful run, the backup-channel key lookup is
in the trace, so the theorem applies to it. -/
theorem C3_config_keys_witness :
    kBACKUP = kAPI_ID ∨ kBACKUP = kAPI_HASH ∨ kBACKUP = kBACKUP :=
  (C3_config_keys (some env0) wOk).1 kBACKUP (by decide)

/-- C5: the `.env` write is an append — the old contents (hence every old
line, in order) are a prefix of the new contents — and each run opens the
file for reading exactly once and for appending at most once. -/
theorem C5_append_frame :
    ∀ (fs : Option Str) (w : World),
      ((setup_session fs w).fs = fs ∨
        ∃ c, fs = some c ∧
          (setup_session fs w).fs = some (c ++ sessChunk w.session_string)) ∧
      (∀ c c2, fs = some c → (setup_session fs w).fs = some c2 →
        splitLines c <+: splitLines c2) ∧
      (setup_session fs w).trace.countP isReadEv = 1 ∧
      (setup_session fs w).trace.countP isAppendEv ≤ 1 := by
  intro fs w
  refine ⟨final_fs_cases fs w, ?_, countP_read_trace fs w, countP_append_trace fs w⟩
  intro c c2 hc hc2
  subst hc
  rcases final_fs_cases (some c) w with h | ⟨c3, hc3, h⟩
  · rw [h] at hc2
    injection hc2 with h2
    subst h2
    exact List.prefix_refl _
  · injection hc3 with h3
    subst h3
    rw [h] at hc2
    injection hc2 with h2
    subst h2
    exact ⟨splitLines (kSESSION ++ '=' :: (w.session_string ++ ['\n'])),
      (splitLines_append c (kSESSION ++ '=' :: (w.session_string ++ ['\n']))).symm⟩

/-- C5 witness: on a concrete successful run the old lines are a prefix of
the new file and the read count is one. -/
theorem C5_append_frame_witness :
    splitLines env0 <+: splitLines (env0 ++ sessChunk wOk.session_string) ∧
    (setup_session (some env0) wOk).trace.countP isReadEv = 1 :=
  ⟨(C5_append_frame (some env0) wOk).2.1 env0 (env0 ++ sessChunk wOk.session_string)
      rfl (by decide),
   (C5_append_frame (some env0) wOk).2.2.1⟩

/-- C4: the session string is appended to the `.env` file before any
backup-channel check; a `get_entity` call happens only when
`BACKUP_CHANNEL_ID` is present and numeric, with exactly the parsed numeric
identifier as argument; and on a fully successful run with a numeric
`BACKUP_CHANNEL_ID` the check is indeed performed. -/
theorem C4_session_saved_before_check :
    ∀ (fs : Option Str) (w : World),
      appendBeforeEntity (setup_session fs w).trace = true ∧
      (∀ i, Ev.callGetEntity i ∈ (setup_session fs w).trace →
        ∃ c, fs = some c ∧ dictGet (parseEnv c) kBACKUP [] ≠ [] ∧
          pyInt (dictGet (parseEnv c) kBACKUP []) = some i) ∧
      (∀ c n me i, fs = some c →
        pyInt (dictGet (parseEnv c) kAPI_ID []) = some n →
        ¬(n = 0 ∨ dictGet (parseEnv c) kAPI_HASH [] = []) →
        w.start = Except.ok () → w.authorized = Except.ok true →
        w.me = Except.ok me →
        pyInt (dictGet (parseEnv c) kBACKUP []) = some i →
        Ev.callGetEntity i ∈ (setup_session fs w).trace) := by
  intro fs w
  refine ⟨?_, ?_, ?_⟩
  · rcases run_cases fs w with ⟨_, heq⟩ | ⟨c, _, _, heq⟩ | ⟨c, i, _, _, _, heq⟩ |
      ⟨c, i, _, _, _, heq⟩
    · rw [heq]
      exact appendBeforeEntity_of_no_entity fun j hj => by simp [banner] at hj
    · rw [heq]
      exact appendBeforeEntity_of_no_entity fun j hj => by simp [banner] at hj
    · rw [heq]
      exact appendBeforeEntity_of_no_entity fun j hj => by simp [banner] at hj
    · have htr : (setup_session fs w).trace =
          preTrace i (dictGet (parseEnv c) kAPI_HASH []) ++
            (tryBody c (parseEnv c) w).1 ++
            handlerEvents (tryBody c (parseEnv c) w).2.2 ++ [Ev.callDisconnect] := by
        rw [heq]
      rw [htr]
      have hApre : ∀ e ∈ preTrace i (dictGet (parseEnv c) kAPI_HASH []),
          isAppendEv e = false ∧ isEntityEv e = false := fun e he => by
        rcases preTrace_mem he with ⟨s, rfl⟩ | rfl | rfl | rfl <;> exact ⟨rfl, rfl⟩
      rcases tryBody_cases c (parseEnv c) w with ⟨e, _, htb⟩ | ⟨_, e, _, htb⟩ |
        ⟨_, _, htb⟩ | ⟨_, _, e, _, htb⟩ | ⟨_, _, me, _, htb⟩
      · rw [htb]
        apply appendBeforeEntity_of_no_entity
        intro j hj
        cases e <;> simp [preTrace, banner, handlerEvents, troubleshootingMsgs] at hj
      · rw [htb]
        apply appendBeforeEntity_of_no_entity
        intro j hj
        cases e <;> simp [preTrace, banner, handlerEvents, troubleshootingMsgs] at hj
      · rw [htb]
        apply appendBeforeEntity_of_no_entity
        intro j hj
        simp [preTrace, banner, handlerEvents] at hj
      · rw [htb]
        apply appendBeforeEntity_of_no_entity
        intro j hj
        cases e <;> simp [preTrace, banner, handlerEvents, troubleshootingMsgs] at hj
      · rw [htb]
        simp only [List.append_assoc]
        rw [appendBeforeEntity_append hApre]
        simp only [List.append_assoc, List.cons_append, List.nil_append]
        simp only [appendBeforeEntity]
        have hAprem : ∀ x ∈ premiumMsgs me,
            isAppendEv x = false ∧ isEntityEv x = false := fun x hx => by
          rcases premiumMsgs_only_out hx with ⟨s, rfl⟩; exact ⟨rfl, rfl⟩
        rw [appendBeforeEntity_append hAprem]
        rfl
  · intro i0 hmem
    rcases run_cases fs w with ⟨_, heq⟩ | ⟨c, _, _, heq⟩ | ⟨c, j, _, _, _, heq⟩ |
      ⟨c, j, hfs, _, _, heq⟩
    · rw [heq] at hmem; simp [banner] at hmem
    · rw [heq] at hmem; simp [banner] at hmem
    · rw [heq] at hmem; simp [banner] at hmem
    · rw [heq] at hmem
      rcases tryBody_cases c (parseEnv c) w with ⟨e, _, htb⟩ | ⟨_, e, _, htb⟩ |
        ⟨_, _, htb⟩ | ⟨_, _, e, _, htb⟩ | ⟨_, _, me, _, htb⟩
      · rw [htb] at hmem
        cases e <;> simp [preTrace, banner, handlerEvents, troubleshootingMsgs] at hmem
      · rw [htb] at hmem
        cases e <;> simp [preTrace, banner, handlerEvents, troubleshootingMsgs] at hmem
      · rw [htb] at hmem
        simp [preTrace, banner, handlerEvents] at hmem
      · rw [htb] at hmem
        cases e <;> simp [preTrace, banner, handlerEvents, troubleshootingMsgs] at hmem
      · rw [htb] at hmem
        by_cases hprem : me.premium_attr_present && me.premium <;>
        · rcases backupCheck_cases (parseEnv c) w with ⟨_, hbeq⟩ | ⟨_, _, hbeq⟩ |
            ⟨hbc, i1, hi1, _, hbeq⟩ | ⟨hbc, i1, m1, hi1, _, hbeq⟩ |
            ⟨hbc, i1, hi1, _, hbeq⟩ <;>
            rw [hbeq] at hmem <;>
            simp [preTrace, banner, handlerEvents, troubleshootingMsgs, premiumMsgs,
              hprem] at hmem <;>
            exact ⟨c, hfs, hbc, by rw [hmem]; exact hi1⟩
  · intro c n me i0 hfs hn hninv hst hau hme hbc
    rcases run_cases fs w with ⟨h1, heq⟩ | ⟨c1, h1, h2, heq⟩ |
      ⟨c1, j, h1, h2, h3, heq⟩ | ⟨c1, j, h1, h2, h3, heq⟩
    · rw [hfs] at h1; cases h1
    · rw [hfs] at h1; injection h1 with h1e; subst h1e
      rw [hn] at h2; cases h2
    · rw [hfs] at h1; injection h1 with h1e; subst h1e
      rw [hn] at h2; injection h2 with h2e; subst h2e
      exact absurd h3 hninv
    · rw [hfs] at h1; injection h1 with h1e; subst h1e
      rw [heq]
      rcases tryBody_cases c (parseEnv c) w with ⟨e, hse, htb⟩ | ⟨_, e, hae, htb⟩ |
        ⟨_, hae, htb⟩ | ⟨_, _, e, hmee, htb⟩ | ⟨_, _, me1, hme1, htb⟩
      · rw [hst] at hse; cases hse
      · rw [hau] at hae; cases hae
      · rw [hau] at hae; injection hae with hb; cases hb
      · rw [hme] at hmee; cases hmee
      · rw [htb]
        rcases backupCheck_cases (parseEnv c) w with ⟨hb, hbeq⟩ | ⟨_, hb2, hbeq⟩ |
          ⟨_, i1, hi1, _, hbeq⟩ | ⟨_, i1, m1, hi1, _, hbeq⟩ | ⟨_, i1, hi1, _, hbeq⟩
        · rw [hb] at hbc
          rw [show pyInt ([] : Str) = none from rfl] at hbc
          cases hbc
        · rw [hb2] at hbc; cases hbc
        · rw [hi1] at hbc; injection hbc with hi; subst hi
          rw [hbeq]; simp
        · rw [hi1] at hbc; injection hbc with hi; subst hi
          rw [hbeq]; simp
        · rw [hi1] at hbc; injection hbc with hi; subst hi
          rw [hbeq]; simp

/-- C4 witness: on a concrete successful run with a numeric backup-channel
id, the `get_entity` call with that id is in the trace. -/
theorem C4_session_saved_before_check_witness :
    Ev.callGetEntity (-100123) ∈ (setup_session (some env0) wOk).trace :=
  (C4_session_saved_before_check (some env0) wOk).2.2 env0 12345 me0 (-100123)
    rfl (by decide) (by decide) rfl rfl rfl (by decide)

/-- C7: before the remote authentication handshake is opened, exactly the two
configuration values `TELEGRAM_API_ID` and `TELEGRAM_API_HASH` are looked up,
and a successful run appends exactly one derived value — the session-string
chunk — back to the configuration file. -/
theorem C7_two_loads_one_append :
    ∀ (fs : Option Str) (w : World),
      (Ev.callStart ∈ (setup_session fs w).trace →
        (beforeStart (setup_session fs w).trace).filter isLookupEv =
          [Ev.lookupEnv kAPI_ID, Ev.lookupEnv kAPI_HASH]) ∧
      (∀ c n me, fs = some c →
        pyInt (dictGet (parseEnv c) kAPI_ID []) = some n →
        ¬(n = 0 ∨ dictGet (parseEnv c) kAPI_HASH [] = []) →
        w.start = Except.ok () → w.authorized = Except.ok true →
        w.me = Except.ok me →
        (setup_session fs w).trace.countP isAppendEv = 1 ∧
        Ev.appendEnvFile (sessChunk w.session_string) ∈ (setup_session fs w).trace) := by
  intro fs w
  constructor
  · intro hst
    rcases run_cases fs w with ⟨_, heq⟩ | ⟨c, _, _, heq⟩ | ⟨c, i, _, _, _, heq⟩ |
      ⟨c, i, _, _, _, heq⟩
    · rw [heq] at hst; simp [banner] at hst
    · rw [heq] at hst; simp [banner] at hst
    · rw [heq] at hst; simp [banner] at hst
    · have htr : (setup_session fs w).trace =
          preTrace i (dictGet (parseEnv c) kAPI_HASH []) ++
            (tryBody c (parseEnv c) w).1 ++
            handlerEvents (tryBody c (parseEnv c) w).2.2 ++ [Ev.callDisconnect] := by
        rw [heq]
      rw [htr]
      have hpre : ∀ e ∈ preTrace i (dictGet (parseEnv c) kAPI_HASH []),
          (!isStartEv e) = true := fun e he => by
        rcases preTrace_mem he with ⟨s, rfl⟩ | rfl | rfl | rfl <;> rfl
      rcases tryBody_cases c (parseEnv c) w with ⟨e, _, htb⟩ | ⟨_, e, _, htb⟩ |
        ⟨_, _, htb⟩ | ⟨_, _, e, _, htb⟩ | ⟨_, _, me, _, htb⟩ <;> rw [htb] <;>
        unfold beforeStart <;>
        simp only [List.append_assoc, List.cons_append] <;>
        rw [takeWhile_append_of_all hpre] <;>
        simp [List.takeWhile_cons, isStartEv, preTrace, banner, List.filter_append,
          isLookupEv]
  · intro c n me hfs hn hninv hstt hau hme
    rcases run_cases fs w with ⟨h1, heq⟩ | ⟨c1, h1, h2, heq⟩ |
      ⟨c1, j, h1, h2, h3, heq⟩ | ⟨c1, j, h1, h2, h3, heq⟩
    · rw [hfs] at h1; cases h1
    · rw [hfs] at h1; injection h1 with h1e; subst h1e
      rw [hn] at h2; cases h2
    · rw [hfs] at h1; injection h1 with h1e; subst h1e
      rw [hn] at h2; injection h2 with h2e; subst h2e
      exact absurd h3 hninv
    · rw [hfs] at h1; injection h1 with h1e; subst h1e
      rcases tryBody_cases c (parseEnv c) w with ⟨e, hse, htb⟩ | ⟨_, e, hae, htb⟩ |
        ⟨_, hae, htb⟩ | ⟨_, _, e, hmee, htb⟩ | ⟨_, _, me1, hme1, htb⟩
      · rw [hstt] at hse; cases hse
      · rw [hau] at hae; cases hae
      · rw [hau] at hae; injection hae with hb; cases hb
      · rw [hme] at hmee; cases hmee
      · constructor
        · have htr : (setup_session fs w).trace =
              preTrace j (dictGet (parseEnv c) kAPI_HASH []) ++
                (tryBody c (parseEnv c) w).1 ++
                handlerEvents (tryBody c (parseEnv c) w).2.2 ++ [Ev.callDisconnect] := by
            rw [heq]
          rw [htr, htb]
          simp only [List.append_assoc, List.countP_append]
          rw [countP_premium_zero (fun s => rfl),
            countP_backupCheck_zero (fun s => rfl) rfl (fun i => rfl),
            countP_handler_zero (fun s => rfl)]
          simp [preTrace, banner, List.countP_cons, isAppendEv]
        · rw [heq, htb]
          simp

/-- C7 witness: on a concrete successful run, the filtered pre-handshake
lookups are exactly the two credential keys and the append count is one. -/
theorem C7_two_loads_one_append_witness :
    (beforeStart (setup_session (some env0) wOk).trace).filter isLookupEv =
      [Ev.lookupEnv kAPI_ID, Ev.lookupEnv kAPI_HASH] ∧
    (setup_session (some env0) wOk).trace.countP isAppendEv = 1 :=
  ⟨(C7_two_loads_one_append (some env0) wOk).1 (by decide),
   ((C7_two_loads_one_append (some env0) wOk).2 env0 12345 me0 rfl (by decide)
      (by decide) rfl rfl rfl).1⟩

lemma countP_start_trace (fs : Option Str) (w : World) :
    (setup_session fs w).trace.countP isStartEv ≤ 1 := by
  rcases run_cases fs w with ⟨_, heq⟩ | ⟨c, _, _, heq⟩ | ⟨c, i, _, _, _, heq⟩ |
    ⟨c, i, _, _, _, heq⟩ <;> rw [heq]
  · simp [banner, List.countP_cons, isStartEv]
  · simp [banner, List.countP_cons, isStartEv]
  · simp [banner, List.countP_cons, isStartEv]
  · simp only [List.countP_append]
    rw [countP_handler_zero (fun s => rfl)]
    have h1 := countP_start_tryBody c (parseEnv c) w
    simp [preTrace, banner, List.countP_cons, isStartEv]
    omega

lemma countP_auth_trace (fs : Option Str) (w : World) :
    (setup_session fs w).trace.countP isAuthEv ≤ 1 := by
  rcases run_cases fs w with ⟨_, heq⟩ | ⟨c, _, _, heq⟩ | ⟨c, i, _, _, _, heq⟩ |
    ⟨c, i, _, _, _, heq⟩ <;> rw [heq]
  · simp [banner, List.countP_cons, isAuthEv]
  · simp [banner, List.countP_cons, isAuthEv]
  · simp [banner, List.countP_cons, isAuthEv]
  · simp only [List.countP_append]
    rw [countP_handler_zero (fun s => rfl)]
    have h1 := countP_auth_tryBody c (parseEnv c) w
    simp [preTrace, banner, List.countP_cons, isAuthEv]
    omega

lemma countP_getme_trace (fs : Option Str) (w : World) :
    (setup_session fs w).trace.countP isGetMeEv ≤ 1 := by
  rcases run_cases fs w with ⟨_, heq⟩ | ⟨c, _, _, heq⟩ | ⟨c, i, _, _, _, heq⟩ |
    ⟨c, i, _, _, _, heq⟩ <;> rw [heq]
  · simp [banner, List.countP_cons, isGetMeEv]
  · simp [banner, List.countP_cons, isGetMeEv]
  · simp [banner, List.countP_cons, isGetMeEv]
  · simp only [List.countP_append]
    rw [countP_handler_zero (fun s => rfl)]
    have h1 := countP_getme_tryBody c (parseEnv c) w
    simp [preTrace, banner, List.countP_cons, isGetMeEv]
    omega

lemma countP_entity_trace (fs : Option Str) (w : World) :
    (setup_session fs w).trace.countP isEntityEv ≤ 1 := by
  rcases run_cases fs w with ⟨_, heq⟩ | ⟨c, _, _, heq⟩ | ⟨c, i, _, _, _, heq⟩ |
    ⟨c, i, _, _, _, heq⟩ <;> rw [heq]
  · simp [banner, List.countP_cons, isEntityEv]
  · simp [banner, List.countP_cons, isEntityEv]
  · simp [banner, List.countP_cons, isEntityEv]
  · simp only [List.countP_append]
    rw [countP_handler_zero (fun s => rfl)]
    have h1 := countP_entity_tryBody c (parseEnv c) w
    simp [preTrace, banner, List.countP_cons, isEntityEv]
    omega

/-- C1: every failure mode of the setup is caught — the run always ends
with a normal return or `sys.exit(1)`, never an escaping exception; each
failure mode prints its human-readable message; and no operation is retried
(each file/remote operation occurs at most once, the `.env` read exactly
once). -/
theorem C1_failures_handled :
    ∀ (fs : Option Str) (w : World),
      ((setup_session fs w).exit = ExitK.normal ∨
        (setup_session fs w).exit = ExitK.exited 1) ∧
      (fs = none → Ev.out envNotFoundMsg ∈ (setup_session fs w).trace ∧
        (setup_session fs w).exit = ExitK.exited 1) ∧
      (∀ c, fs = some c → pyInt (dictGet (parseEnv c) kAPI_ID []) = none →
        Ev.out missingCredsMsg ∈ (setup_session fs w).trace ∧
        (setup_session fs w).exit = ExitK.exited 1) ∧
      (∀ c n, fs = some c → pyInt (dictGet (parseEnv c) kAPI_ID []) = some n →
        (n = 0 ∨ dictGet (parseEnv c) kAPI_HASH [] = []) →
        Ev.out invalidCredsMsg ∈ (setup_session fs w).trace ∧
        (setup_session fs w).exit = ExitK.exited 1) ∧
      (∀ m, w.start = Except.error (.exn m) →
        Ev.callStart ∈ (setup_session fs w).trace →
        Ev.out (setupFailedMsg m) ∈ (setup_session fs w).trace ∧
        (setup_session fs w).exit = ExitK.normal) ∧
      (∀ i m, Ev.callGetEntity i ∈ (setup_session fs w).trace →
        w.entity i = Except.error (.exn m) →
        Ev.out (warnPrefixMsg ++ m) ∈ (setup_session fs w).trace) ∧
      ((setup_session fs w).trace.countP isReadEv = 1 ∧
        (setup_session fs w).trace.countP isAppendEv ≤ 1 ∧
        (setup_session fs w).trace.countP isStartEv ≤ 1 ∧
        (setup_session fs w).trace.countP isAuthEv ≤ 1 ∧
        (setup_session fs w).trace.countP isGetMeEv ≤ 1 ∧
        (setup_session fs w).trace.countP isEntityEv ≤ 1) := by
  intro fs w
  refine ⟨?_, ?_, ?_, ?_, ?_, ?_,
    countP_read_trace fs w, countP_append_trace fs w, countP_start_trace fs w,
    countP_auth_trace fs w, countP_getme_trace fs w, countP_entity_trace fs w⟩
  · rcases run_cases fs w with ⟨_, heq⟩ | ⟨c, _, _, heq⟩ | ⟨c, i, _, _, _, heq⟩ |
      ⟨c, i, _, _, _, heq⟩ <;> rw [heq]
    · right; rfl
    · right; rfl
    · right; rfl
    · left; rfl
  · intro hfs
    rcases run_cases fs w with ⟨_, heq⟩ | ⟨c, h1, _, heq⟩ | ⟨c, i, h1, _, _, heq⟩ |
      ⟨c, i, h1, _, _, heq⟩
    · rw [heq]; simp [banner]
    · rw [hfs] at h1; cases h1
    · rw [hfs] at h1; cases h1
    · rw [hfs] at h1; cases h1
  · intro c hfs hint
    rcases run_cases fs w with ⟨h1, heq⟩ | ⟨c1, h1, h2, heq⟩ |
      ⟨c1, j, h1, h2, _, heq⟩ | ⟨c1, j, h1, h2, _, heq⟩
    · rw [hfs] at h1; cases h1
    · rw [hfs] at h1; injection h1 with h1e; subst h1e
      rw [heq]; simp [banner]
    · rw [hfs] at h1; injection h1 with h1e; subst h1e
      rw [hint] at h2; cases h2
    · rw [hfs] at h1; injection h1 with h1e; subst h1e
      rw [hint] at h2; cases h2
  · intro c n hfs hint hinv
    rcases run_cases fs w with ⟨h1, heq⟩ | ⟨c1, h1, h2, heq⟩ |
      ⟨c1, j, h1, h2, _, heq⟩ | ⟨c1, j, h1, h2, h3, heq⟩
    · rw [hfs] at h1; cases h1
    · rw [hfs] at h1; injection h1 with h1e; subst h1e
      rw [hint] at h2; cases h2
    · rw [hfs] at h1; injection h1 with h1e; subst h1e
      rw [heq]; simp [banner]
    · rw [hfs] at h1; injection h1 with h1e; subst h1e
      rw [hint] at h2; injection h2 with h2e; subst h2e
      exact absurd hinv h3
  · intro m hw hst
    rcases run_cases fs w with ⟨_, heq⟩ | ⟨c, _, _, heq⟩ | ⟨c, i, _, _, _, heq⟩ |
      ⟨c, i, _, _, _, heq⟩
    · rw [heq] at hst; simp [banner] at hst
    · rw [heq] at hst; simp [banner] at hst
    · rw [heq] at hst; simp [banner] at hst
    · rcases tryBody_cases c (parseEnv c) w with ⟨e, hse, htb⟩ | ⟨hok, e, _, htb⟩ |
        ⟨hok, _, htb⟩ | ⟨hok, _, e, _, htb⟩ | ⟨hok, _, me1, _, htb⟩
      · rw [hw] at hse; injection hse with he; subst he
        rw [heq, htb]
        constructor
        · simp [handlerEvents, troubleshootingMsgs]
        · rfl
      · rw [hw] at hok; cases hok
      · rw [hw] at hok; cases hok
      · rw [hw] at hok; cases hok
      · rw [hw] at hok; cases hok
  · intro i0 m hmem hent
    rcases run_cases fs w with ⟨_, heq⟩ | ⟨c, _, _, heq⟩ | ⟨c, j, _, _, _, heq⟩ |
      ⟨c, j, hfs, _, _, heq⟩
    · rw [heq] at hmem; simp [banner] at hmem
    · rw [heq] at hmem; simp [banner] at hmem
    · rw [heq] at hmem; simp [banner] at hmem
    · rw [heq] at hmem
      rcases tryBody_cases c (parseEnv c) w with ⟨e, _, htb⟩ | ⟨_, e, _, htb⟩ |
        ⟨_, _, htb⟩ | ⟨_, _, e, _, htb⟩ | ⟨_, _, me, _, htb⟩
      · rw [htb] at hmem
        cases e <;> simp [preTrace, banner, handlerEvents, troubleshootingMsgs] at hmem
      · rw [htb] at hmem
        cases e <;> simp [preTrace, banner, handlerEvents, troubleshootingMsgs] at hmem
      · rw [htb] at hmem
        simp [preTrace, banner, handlerEvents] at hmem
      · rw [htb] at hmem
        cases e <;> simp [preTrace, banner, handlerEvents, troubleshootingMsgs] at hmem
      · rw [htb] at hmem
        by_cases hprem : me.premium_attr_present && me.premium
        · rcases backupCheck_cases (parseEnv c) w with ⟨_, hbeq⟩ | ⟨_, _, hbeq⟩ |
            ⟨hbc, i1, hi1, hent1, hbeq⟩ | ⟨hbc, i1, m1, hi1, hent1, hbeq⟩ |
            ⟨hbc, i1, hi1, hent1, hbeq⟩ <;>
            rw [hbeq] at hmem <;>
            simp [preTrace, banner, handlerEvents, troubleshootingMsgs, premiumMsgs,
              hprem] at hmem
          · rw [hmem] at hent; rw [hent] at hent1; cases hent1
          · rw [hmem] at hent; rw [hent] at hent1
            injection hent1 with h4
            injection h4 with h5
            subst h5
            rw [heq, htb, hbeq]
            simp [handlerEvents]
          · rw [hmem] at hent; rw [hent] at hent1
            injection hent1 with h4
            exact PyExn.noConfusion h4
        · rcases backupCheck_cases (parseEnv c) w with ⟨_, hbeq⟩ | ⟨_, _, hbeq⟩ |
            ⟨hbc, i1, hi1, hent1, hbeq⟩ | ⟨hbc, i1, m1, hi1, hent1, hbeq⟩ |
            ⟨hbc, i1, hi1, hent1, hbeq⟩ <;>
            rw [hbeq] at hmem <;>
            simp [preTrace, banner, handlerEvents, troubleshootingMsgs, premiumMsgs,
              hprem] at hmem
          · rw [hmem] at hent; rw [hent] at hent1; cases hent1
          · rw [hmem] at hent; rw [hent] at hent1
            injection hent1 with h4
            injection h4 with h5
            subst h5
            rw [heq, htb, hbeq]
            simp [handlerEvents]
          · rw [hmem] at hent; rw [hent] at hent1
            injection hent1 with h4
            exact PyExn.noConfusion h4

/-- C1 witness: with no `.env` file the error is reported and the process
exits with status 1; with a network error in `client.start()` the
troubleshooting message is printed and the run still ends normally. -/
theorem C1_failures_handled_witness :
    (Ev.out envNotFoundMsg ∈ (setup_session none wOk).trace ∧
      (setup_session none wOk).exit = ExitK.exited 1) ∧
    (Ev.out (setupFailedMsg "ConnectionError".toList) ∈
        (setup_session (some env0) wNet).trace ∧
      (setup_session (some env0) wNet).exit = ExitK.normal) :=
  ⟨(C1_failures_handled none wOk).2.1 rfl,
   (C1_failures_handled (some env0) wNet).2.2.2.2.1 "ConnectionError".toList rfl
     (by decide)⟩

end SetupTelegram
